import Mathlib

/-!
Verification of the paillier-zk proof modules against their specification.

The development shallowly embeds the two proof modules present in the source,
the Πlog* module (group_element_vs_paillier_encryption_in_range.rs) and the
Πaff-g module (paillier_affine_operation_in_range.rs).  Big integers
(the unknown_order BigNumber type, always nonnegative in this code) are
embedded as Nat.  The external collaborators are embedded as follows.

* The Paillier encryption primitive of the external libpaillier crate:
  Enc_N(m; r) = (N+1)^m * r^N mod N^2, defined (some value) exactly when the
  plaintext is in range (m < N), which is the documented condition under
  which the external primitive rejects its input; homomorphic addition is
  ciphertext multiplication mod N^2 and homomorphic scalar multiplication is
  ciphertext exponentiation mod N^2 (both total).
* The elliptic curve of order q used by Πlog* is embedded as the additive
  group Z/qZ: a point is its canonical representative (a natural below q),
  the generator G is 1 mod q, point addition and scalar multiplication are
  addition and multiplication of representatives followed by reduction.
* The transcript hash functions (SHA-512 for Πaff-g, hash-to-scalar for
  Πlog*) and the byte serialisations of big integers, keys and points are
  external; they are passed as explicit function parameters, so every
  theorem quantifies over them.  Interpreting a digest as a big-endian big
  integer is the canonical fold, embedded concretely as fromBE.
* Randomness is consumed only in commit; a run of commit is embedded by
  passing the tuple of sampled values explicitly, together with a validity
  predicate recording the exact sampling bounds the code requests from the
  RNG (BigNumber::from_rng upper bounds and gen_inversible membership).
-/

namespace PaillierZK

/-- Bit size constant L of lib.rs. -/
def L : ℕ := 228

/-- Bit size overshoot constant EPSILON of lib.rs. -/
def EPSILON : ℕ := 322

/-- Modelled from the spec: the shared primitive combine of common.rs (the
file is declared in lib.rs but missing from the sources); per §4.1 it is the
dual modular exponentiation a^x · b^y mod M, the final product always
reduced modulo M. -/
def combine (a x b y M : ℕ) : ℕ := a ^ x % M * (b ^ y % M) % M

/-- Modelled from the spec: convert_scalar of common.rs reduces a big
integer to the scalar field of the curve, i.e. modulo the curve order q. -/
def convert_scalar (q x : ℕ) : ℕ := x % q

/-- Modelled from the spec: the verifier-side error taxonomy InvalidProof of
common.rs (§7 of the spec). -/
inductive InvalidProof where
  | equalityCheckFailed (i : ℕ)
  | rangeCheckFailed (i : ℕ)
  | encryptionFailed
deriving DecidableEq

/-- Modelled from the spec: the prover-side error taxonomy ProtocolError of
common.rs (§7 of the spec). -/
inductive ProtocolError where
  | encryptionFailed
  | hashFailed
deriving DecidableEq

/-- The external Paillier encryption primitive: Enc_N(m; r) =
(N+1)^m · r^N mod N², rejecting plaintexts out of range (m ≥ N). -/
def paillierEncrypt (N m r : ℕ) : Option ℕ :=
  if m < N then some ((N + 1) ^ m * r ^ N % (N * N)) else none

/-- The external Paillier homomorphic scalar multiplication: c^a mod N². -/
def paillierMul (N c a : ℕ) : ℕ := c ^ a % (N * N)

/-- The external Paillier homomorphic addition: c · d mod N². -/
def paillierAdd (N c d : ℕ) : ℕ := c * d % (N * N)

/-- The generator of the embedded curve group of order q. -/
def ptGen (q : ℕ) : ℕ := 1 % q

/-- Scalar multiplication in the embedded curve group of order q. -/
def ptMul (q p s : ℕ) : ℕ := p * s % q

/-- Point addition in the embedded curve group of order q. -/
def ptAdd (q p₁ p₂ : ℕ) : ℕ := (p₁ + p₂) % q

/-- Interpreting a byte string as a big-endian big integer
(BigNumber::from_slice). -/
def fromBE (l : List ℕ) : ℕ := l.foldl (fun acc b => acc * 256 + b) 0

/-- The verdict obtained by running a list of checks in order and failing
with the error of the first violated check (spec §7: the verifier fails on
the first violated check and reports its index). -/
def firstFailure {ε : Type} : List (Bool × ε) → Except ε Unit
  | [] => .ok ()
  | (true, _) :: rest => firstFailure rest
  | (false, e) :: _ => .error e

/-- If a ≡ b mod n then a^n ≡ b^n mod n²: raising to the n-th power lifts a
congruence modulo n to one modulo n².  This is what makes the verifier's
re-encryption of the reduced nonce agree with the homomorphic combination
modulo N². -/
theorem pow_congr_sq {a b n : ℕ} (h : a ≡ b [MOD n]) : a ^ n ≡ b ^ n [MOD n * n] := by
  have hd : (n : ℤ) ∣ (b : ℤ) - (a : ℤ) := (Nat.modEq_iff_dvd).mp h
  have hab : (b : ℤ) ≡ (a : ℤ) [ZMOD (n : ℤ)] := by
    rw [Int.modEq_iff_dvd]
    simpa using (dvd_neg.mpr hd)
  have hsum : (n : ℤ) ∣ ∑ i ∈ Finset.range n, (b : ℤ) ^ i * (a : ℤ) ^ (n - 1 - i) := by
    have hterm : ∀ i ∈ Finset.range n,
        (n : ℤ) ∣ (b : ℤ) ^ i * (a : ℤ) ^ (n - 1 - i) - (a : ℤ) ^ (n - 1) := by
      intro i hi
      have hin : i < n := Finset.mem_range.mp hi
      have h1 : (b : ℤ) ^ i * (a : ℤ) ^ (n - 1 - i)
          ≡ (a : ℤ) ^ i * (a : ℤ) ^ (n - 1 - i) [ZMOD (n : ℤ)] :=
        (hab.pow i).mul_right _
      have h2 : (a : ℤ) ^ i * (a : ℤ) ^ (n - 1 - i) = (a : ℤ) ^ (n - 1) := by
        rw [← pow_add]
        congr 1
        omega
      have h3 : (b : ℤ) ^ i * (a : ℤ) ^ (n - 1 - i) ≡ (a : ℤ) ^ (n - 1) [ZMOD (n : ℤ)] :=
        h2 ▸ h1
      exact (Int.modEq_iff_dvd.mp h3.symm)
    have hdiff : (n : ℤ) ∣ (∑ i ∈ Finset.range n, (b : ℤ) ^ i * (a : ℤ) ^ (n - 1 - i))
        - n * (a : ℤ) ^ (n - 1) := by
      have := Finset.dvd_sum hterm
      have hrw : (∑ i ∈ Finset.range n,
            ((b : ℤ) ^ i * (a : ℤ) ^ (n - 1 - i) - (a : ℤ) ^ (n - 1)))
          = (∑ i ∈ Finset.range n, (b : ℤ) ^ i * (a : ℤ) ^ (n - 1 - i))
            - n * (a : ℤ) ^ (n - 1) := by
        rw [Finset.sum_sub_distrib, Finset.sum_const, Finset.card_range]
        ring
      rwa [hrw] at this
    have hmul : (n : ℤ) ∣ n * (a : ℤ) ^ (n - 1) := Dvd.intro _ rfl
    have := dvd_add hdiff hmul
    simpa using this
  have key : ((n : ℤ) * n) ∣ (b : ℤ) ^ n - (a : ℤ) ^ n := by
    rw [← geom_sum₂_mul (b : ℤ) (a : ℤ) n]
    exact mul_dvd_mul hsum hd
  rw [Nat.modEq_iff_dvd]
  push_cast
  exact key

/-- Unreduced form of combine. -/
theorem combine_eq (a x b y M : ℕ) : combine a x b y M = a ^ x * b ^ y % M := by
  rw [combine]
  exact (Nat.mul_mod _ _ _).symm

/-- combine with exponent one on the left argument. -/
theorem combine_one (a b e M : ℕ) : combine a 1 b e M = a * b ^ e % M := by
  rw [combine_eq, pow_one]

/-- Characterisation of successful external Paillier encryption. -/
theorem paillierEncrypt_eq_some {N m r v : ℕ} :
    paillierEncrypt N m r = some v ↔ m < N ∧ v = (N + 1) ^ m * r ^ N % (N * N) := by
  unfold paillierEncrypt
  split
  · simp only [Option.some.injEq]
    constructor
    · intro h
      exact ⟨by assumption, h.symm⟩
    · intro h
      exact h.2.symm
  · simp only [reduceCtorEq, false_iff, not_and]
    intro h
    omega

/-- Reducing both factors modulo n before a product does not change its
residue. -/
theorem mod_mul_mod (n a b : ℕ) : a % n * (b % n) % n ≡ a * b [MOD n] :=
  (Nat.mod_modEq _ n).trans ((Nat.mod_modEq a n).mul (Nat.mod_modEq b n))

/-- The homomorphic equality behind the ciphertext checks: re-encrypting
the masked plaintext m1 + e·m2 under the reduced combined nonce equals the
combination A · C^e of the two ciphertexts modulo N². -/
theorem enc_check (N m1 m2 r ρ e : ℕ) :
    (N + 1) ^ (m1 + e * m2) * (r * ρ ^ e % N) ^ N % (N * N)
      = combine ((N + 1) ^ m1 * r ^ N % (N * N)) 1
          ((N + 1) ^ m2 * ρ ^ N % (N * N)) e (N * N) := by
  rw [combine_one]
  calc (N + 1) ^ (m1 + e * m2) * (r * ρ ^ e % N) ^ N
      ≡ (N + 1) ^ (m1 + e * m2) * (r * ρ ^ e) ^ N [MOD N * N] :=
        (pow_congr_sq (Nat.mod_modEq _ _)).mul_left _
    _ = (N + 1) ^ m1 * r ^ N * ((N + 1) ^ m2 * ρ ^ N) ^ e := by ring
    _ ≡ (N + 1) ^ m1 * r ^ N % (N * N)
          * ((N + 1) ^ m2 * ρ ^ N % (N * N)) ^ e [MOD N * N] :=
        ((Nat.mod_modEq _ _).symm).mul (((Nat.mod_modEq _ _).symm).pow e)

/-- The Ring-Pedersen equality behind the commitment checks: the combined
response exponents match the product of the two commitments modulo N̂. -/
theorem pedersen_check (s t M x μ α γ e : ℕ) :
    combine s (α + e * x) t (γ + e * μ) M
      = combine (combine s α t γ M) 1 (combine s x t μ M) e M := by
  simp only [combine_eq, combine_one, pow_one]
  calc s ^ (α + e * x) * t ^ (γ + e * μ)
      = s ^ α * t ^ γ * (s ^ x * t ^ μ) ^ e := by ring
    _ ≡ s ^ α * t ^ γ % M * (s ^ x * t ^ μ % M) ^ e [MOD M] :=
        ((Nat.mod_modEq _ _).symm).mul (((Nat.mod_modEq _ _).symm).pow e)

/-- The plain modular-exponentiation equality behind the group check of
Πaff-g. -/
theorem pow_check (g q α x e : ℕ) :
    g ^ (α + e * x) % q = combine (g ^ α % q) 1 (g ^ x % q) e q := by
  rw [combine_one]
  calc g ^ (α + e * x) = g ^ α * (g ^ x) ^ e := by ring
    _ ≡ g ^ α % q * (g ^ x % q) ^ e [MOD q] :=
        ((Nat.mod_modEq _ _).symm).mul (((Nat.mod_modEq _ _).symm).pow e)

/-- The curve equality behind check 2 of Πlog*, in the embedded group of
order q. -/
theorem pt_check (q α x e : ℕ) :
    ptMul q (ptGen q) (convert_scalar q (α + e * x))
      = ptAdd q (ptMul q (ptGen q) (convert_scalar q α))
          (ptMul q (ptMul q (ptGen q) (convert_scalar q x)) (convert_scalar q e)) := by
  unfold ptMul ptGen ptAdd convert_scalar
  calc 1 % q * ((α + e * x) % q)
      ≡ 1 * (α + e * x) [MOD q] := (Nat.mod_modEq 1 q).mul (Nat.mod_modEq _ q)
    _ = 1 * α + 1 * x * e := by ring
    _ ≡ 1 % q * (α % q) % q + 1 % q * (x % q) % q * (e % q) % q [MOD q] :=
        ((mod_mul_mod q 1 α).symm).add
          (((Nat.mod_modEq _ q).trans
            ((mod_mul_mod q 1 x).mul (Nat.mod_modEq e q))).symm)

/-- The homomorphic equality behind check 1 of Πaff-g: the affine
combination of the response equals A · D^e modulo N². -/
theorem affg_check1 (N c x y α β r ρ e : ℕ) :
    paillierAdd N (paillierMul N c (α + e * x))
        ((N + 1) ^ (β + e * y) * (r * ρ ^ e % N) ^ N % (N * N))
      = combine (paillierAdd N (paillierMul N c α)
            ((N + 1) ^ β * r ^ N % (N * N))) 1
          (paillierAdd N (paillierMul N c x)
            ((N + 1) ^ y * ρ ^ N % (N * N))) e (N * N) := by
  rw [combine_one]
  unfold paillierAdd paillierMul
  calc c ^ (α + e * x) % (N * N)
        * ((N + 1) ^ (β + e * y) * (r * ρ ^ e % N) ^ N % (N * N))
      ≡ c ^ (α + e * x) * ((N + 1) ^ (β + e * y) * (r * ρ ^ e % N) ^ N) [MOD N * N] :=
        (Nat.mod_modEq _ _).mul (Nat.mod_modEq _ _)
    _ ≡ c ^ (α + e * x) * ((N + 1) ^ (β + e * y) * (r * ρ ^ e) ^ N) [MOD N * N] :=
        ((pow_congr_sq (Nat.mod_modEq _ _)).mul_left _).mul_left _
    _ = c ^ α * ((N + 1) ^ β * r ^ N) * (c ^ x * ((N + 1) ^ y * ρ ^ N)) ^ e := by
        ring
    _ ≡ (c ^ α % (N * N) * ((N + 1) ^ β * r ^ N % (N * N)) % (N * N))
          * (c ^ x % (N * N) * ((N + 1) ^ y * ρ ^ N % (N * N)) % (N * N)) ^ e
            [MOD N * N] :=
        ((mod_mul_mod _ _ _).symm).mul (((mod_mul_mod _ _ _).symm).pow e)

/-! ## The Πlog* module (group_element_vs_paillier_encryption_in_range.rs)

The curve is a type parameter in the source; here its order q is passed as
an explicit parameter and points are canonical residues modulo q.  The
hash-to-scalar function of the challenge, the byte serialisations of big
integers and of (compressed) curve points, and the hash tag are likewise
passed as parameters H, enc, encPt and tag. -/

namespace Plog

open PaillierZK

/-- Public data of Πlog*: the Paillier key N0, the ciphertext C and the
curve point X. -/
structure Data where
  key0 : ℕ
  c : ℕ
  x : ℕ
deriving DecidableEq

/-- Private data of the Πlog* prover: the plaintext x and the encryption
nonce. -/
structure PrivateData where
  x : ℕ
  nonce : ℕ
deriving DecidableEq

/-- The Πlog* commitment (prover's first message). -/
structure Commitment where
  s : ℕ
  a : ℕ
  y : ℕ
  d : ℕ
deriving DecidableEq

/-- The Πlog* private commitment (the masks retained between commit and
prove). -/
structure PrivateCommitment where
  alpha : ℕ
  mu : ℕ
  r : ℕ
  gamma : ℕ
deriving DecidableEq

/-- The Πlog* proof (response). -/
structure Proof where
  z1 : ℕ
  z2 : ℕ
  z3 : ℕ
deriving DecidableEq

/-- The Ring-Pedersen auxiliary data shared by prover and verifier. -/
structure Aux where
  s : ℕ
  t : ℕ
  rsa_modulo : ℕ
deriving DecidableEq

/-- One run of the randomness consumed by Πlog* commit: the four values the
code draws from the RNG. -/
structure Rng where
  alpha : ℕ
  mu : ℕ
  r : ℕ
  gamma : ℕ
deriving DecidableEq

/-- The exact sampling ranges Πlog* commit requests from the RNG:
alpha from below 1 <<< (L+EPSILON), mu from below (1 <<< L) · N̂, r from
gen_inversible(N0) and gamma from below (1 <<< (L+EPSILON)) · N̂. -/
def Rng.valid (aux : Aux) (n0 : ℕ) (rng : Rng) : Prop :=
  rng.alpha < 1 <<< (L + EPSILON)
    ∧ rng.mu < 1 <<< L * aux.rsa_modulo
    ∧ rng.r < n0 ∧ Nat.gcd rng.r n0 = 1
    ∧ rng.gamma < 1 <<< (L + EPSILON) * aux.rsa_modulo

instance (aux : Aux) (n0 : ℕ) (rng : Rng) : Decidable (Rng.valid aux n0 rng) := by
  unfold Rng.valid
  infer_instance

/-- Πlog* commit. -/
def commit (q : ℕ) (aux : Aux) (data : Data) (pdata : PrivateData) (rng : Rng) :
    Except ProtocolError (Commitment × PrivateCommitment) :=
  match paillierEncrypt data.key0 rng.alpha rng.r with
  | none => .error .encryptionFailed
  | some a =>
      .ok ({ s := combine aux.s pdata.x aux.t rng.mu aux.rsa_modulo
             a := a
             y := ptMul q (ptGen q) (convert_scalar q rng.alpha)
             d := combine aux.s rng.alpha aux.t rng.gamma aux.rsa_modulo },
           { alpha := rng.alpha, mu := rng.mu, r := rng.r, gamma := rng.gamma })

/-- Πlog* challenge: hash-to-scalar H over the tag and the serialised
transcript, the scalar then read back as a big integer (hence reduced
modulo the curve order q). -/
def challenge (H : List ℕ → List (List ℕ) → ℕ) (enc encPt : ℕ → List ℕ)
    (tag : List ℕ) (q : ℕ) (aux : Aux) (data : Data) (comm : Commitment) : ℕ :=
  H tag
    [enc aux.s, enc aux.t, enc aux.rsa_modulo,
     enc data.key0, enc data.c, encPt data.x,
     enc comm.s, enc comm.a, encPt comm.y, enc comm.d] % q

/-- Πlog* prove. -/
def prove (data : Data) (pdata : PrivateData) (pcomm : PrivateCommitment)
    (e : ℕ) : Proof :=
  { z1 := pcomm.alpha + e * pdata.x
    z2 := combine pcomm.r 1 pdata.nonce e data.key0
    z3 := pcomm.gamma + e * pcomm.mu }

/-- Πlog* verify: three equality checks and one range check, in the order
of the source, failing with the error of the first violated check. -/
def verify (q : ℕ) (aux : Aux) (data : Data) (comm : Commitment) (e : ℕ)
    (pf : Proof) : Except InvalidProof Unit :=
  match paillierEncrypt data.key0 pf.z1 pf.z2 with
  | none => .error .encryptionFailed
  | some lhs =>
      if lhs = combine comm.a 1 data.c e (data.key0 * data.key0) then
        if ptMul q (ptGen q) (convert_scalar q pf.z1)
            = ptAdd q comm.y (ptMul q data.x (convert_scalar q e)) then
          if combine aux.s pf.z1 aux.t pf.z3 aux.rsa_modulo
              = combine comm.d 1 comm.s e aux.rsa_modulo then
            if pf.z1 ≤ 1 <<< (L + EPSILON) then .ok ()
            else .error (.rangeCheckFailed 4)
          else .error (.equalityCheckFailed 3)
        else .error (.equalityCheckFailed 2)
      else .error (.equalityCheckFailed 1)

/-- Πlog* compute_proof: commit, then derive the challenge, then prove. -/
def computeProof (H : List ℕ → List (List ℕ) → ℕ) (enc encPt : ℕ → List ℕ)
    (tag : List ℕ) (q : ℕ) (aux : Aux) (data : Data) (pdata : PrivateData)
    (rng : Rng) : Except ProtocolError (Commitment × ℕ × Proof) :=
  match commit q aux data pdata rng with
  | .error err => .error err
  | .ok (comm, pcomm) =>
      let e := challenge H enc encPt tag q aux data comm
      .ok (comm, e, prove data pdata pcomm e)

/-- The commitment produced by a successful run of Πlog* commit. -/
def commOf (q : ℕ) (aux : Aux) (data : Data) (pdata : PrivateData) (rng : Rng) :
    Commitment :=
  { s := combine aux.s pdata.x aux.t rng.mu aux.rsa_modulo
    a := (data.key0 + 1) ^ rng.alpha * rng.r ^ data.key0 % (data.key0 * data.key0)
    y := ptMul q (ptGen q) (convert_scalar q rng.alpha)
    d := combine aux.s rng.alpha aux.t rng.gamma aux.rsa_modulo }

/-- The private commitment produced by Πlog* commit. -/
def pcommOf (rng : Rng) : PrivateCommitment :=
  { alpha := rng.alpha, mu := rng.mu, r := rng.r, gamma := rng.gamma }

/-- Πlog* commit succeeds exactly on in-range alpha, and then produces
commOf and pcommOf. -/
theorem log_commit_eq {q : ℕ} {aux : Aux} {data : Data} {pdata : PrivateData}
    {rng : Rng} (hα : rng.alpha < data.key0) :
    commit q aux data pdata rng = .ok (commOf q aux data pdata rng, pcommOf rng) := by
  unfold commit
  rw [paillierEncrypt, if_pos hα]
  rfl

/-- Πlog* compute_proof under a successful commit. -/
theorem log_computeProof_eq (H : List ℕ → List (List ℕ) → ℕ) (enc encPt : ℕ → List ℕ)
    (tag : List ℕ) {q : ℕ} {aux : Aux} {data : Data} {pdata : PrivateData}
    {rng : Rng} (hα : rng.alpha < data.key0) :
    computeProof H enc encPt tag q aux data pdata rng
      = .ok (commOf q aux data pdata rng,
             challenge H enc encPt tag q aux data (commOf q aux data pdata rng),
             prove data pdata (pcommOf rng)
               (challenge H enc encPt tag q aux data (commOf q aux data pdata rng))) := by
  unfold computeProof
  rw [log_commit_eq hα]

/-- An honestly produced Πlog* proof passes the three equality checks, so
verification reduces to the range check on z1, provided the verifier-side
re-encryption of z1 is accepted (z1 below N0). -/
theorem log_verify_prove_honest {q : ℕ} (aux : Aux) {data : Data}
    {pdata : PrivateData} {rng : Rng} (e : ℕ)
    (hc : paillierEncrypt data.key0 pdata.x pdata.nonce = some data.c)
    (hx : data.x = ptMul q (ptGen q) (convert_scalar q pdata.x))
    (hz1 : rng.alpha + e * pdata.x < data.key0) :
    verify q aux data (commOf q aux data pdata rng) e
        (prove data pdata (pcommOf rng) e)
      = if rng.alpha + e * pdata.x ≤ 1 <<< (L + EPSILON) then .ok ()
        else .error (.rangeCheckFailed 4) := by
  obtain ⟨hxlt, hcval⟩ := paillierEncrypt_eq_some.mp hc
  have henc : paillierEncrypt data.key0 (rng.alpha + e * pdata.x)
      (combine rng.r 1 pdata.nonce e data.key0)
      = some ((data.key0 + 1) ^ (rng.alpha + e * pdata.x)
          * (combine rng.r 1 pdata.nonce e data.key0) ^ data.key0
          % (data.key0 * data.key0)) := by
    rw [paillierEncrypt, if_pos hz1]
  unfold verify prove pcommOf commOf
  simp only
  rw [henc]
  simp only
  rw [if_pos, if_pos, if_pos]
  · rw [pedersen_check]
  · rw [hx]
    exact pt_check q rng.alpha pdata.x e
  · rw [hcval, combine_one rng.r pdata.nonce e data.key0]
    exact enc_check data.key0 rng.alpha pdata.x rng.r pdata.nonce e

end Plog

/-! ## The Πaff-g module (paillier_affine_operation_in_range.rs)

This module is curve-free: the group is Z/qZ given by a generator g and a
modulus q carried in Data, and the challenge hash is SHA-512; the hash and
the byte serialisation are passed as the parameters H and enc.  The module's
verify unwraps the Option returned by the external encryption primitive, so
a failing verifier-side (or commit-side) encryption is a panic; a panic is
embedded as the none outcome. -/

namespace Paffg

open PaillierZK

/-- Public data of Πaff-g. -/
structure Data where
  g : ℕ
  q : ℕ
  key0 : ℕ
  key1 : ℕ
  c : ℕ
  d : ℕ
  y : ℕ
  x : ℕ
deriving DecidableEq

/-- Private data of the Πaff-g prover. -/
structure PrivateData where
  x : ℕ
  y : ℕ
  nonce : ℕ
  nonce_y : ℕ
deriving DecidableEq

/-- The Πaff-g commitment. -/
structure Commitment where
  a : ℕ
  b_x : ℕ
  b_y : ℕ
  e : ℕ
  s : ℕ
  f : ℕ
  t : ℕ
deriving DecidableEq

/-- The Πaff-g private commitment. -/
structure PrivateCommitment where
  alpha : ℕ
  beta : ℕ
  r : ℕ
  r_y : ℕ
  gamma : ℕ
  m : ℕ
  delta : ℕ
  mu : ℕ
deriving DecidableEq

/-- The Πaff-g proof. -/
structure Proof where
  z1 : ℕ
  z2 : ℕ
  z3 : ℕ
  z4 : ℕ
  w : ℕ
  w_y : ℕ
deriving DecidableEq

/-- The Ring-Pedersen auxiliary data, as declared in this module. -/
structure Aux where
  s : ℕ
  t : ℕ
  rsa_modulo : ℕ
deriving DecidableEq

/-- One run of the randomness consumed by Πaff-g commit: the eight values
the code draws from the RNG. -/
structure Rng where
  alpha : ℕ
  beta : ℕ
  r : ℕ
  r_y : ℕ
  gamma : ℕ
  m : ℕ
  delta : ℕ
  mu : ℕ
deriving DecidableEq

/-- The exact sampling ranges Πaff-g commit requests from the RNG. -/
def Rng.valid (aux : Aux) (n0 n1 : ℕ) (rng : Rng) : Prop :=
  rng.alpha < 1 <<< (L + EPSILON)
    ∧ rng.beta < 1 <<< (L + EPSILON)
    ∧ rng.r < n0 ∧ Nat.gcd rng.r n0 = 1
    ∧ rng.r_y < n1 ∧ Nat.gcd rng.r_y n1 = 1
    ∧ rng.gamma < 1 <<< (L + EPSILON) * aux.rsa_modulo
    ∧ rng.m < 1 <<< L * aux.rsa_modulo
    ∧ rng.delta < 1 <<< (L + EPSILON) * aux.rsa_modulo
    ∧ rng.mu < 1 <<< L * aux.rsa_modulo

instance (aux : Aux) (n0 n1 : ℕ) (rng : Rng) : Decidable (Rng.valid aux n0 n1 rng) := by
  unfold Rng.valid
  infer_instance

/-- Πaff-g commit.  The source unwraps the two encryptions, so a rejected
encryption input is a panic, embedded as none. -/
def commit (aux : Aux) (data : Data) (pdata : PrivateData) (rng : Rng) :
    Option (Commitment × PrivateCommitment) :=
  match paillierEncrypt data.key0 rng.beta rng.r with
  | none => none
  | some a_add =>
      match paillierEncrypt data.key1 rng.beta rng.r_y with
      | none => none
      | some b_y =>
          some ({ a := paillierAdd data.key0 (paillierMul data.key0 data.c rng.alpha) a_add
                  b_x := data.g ^ rng.alpha % data.q
                  b_y := b_y
                  e := combine aux.s rng.alpha aux.t rng.gamma aux.rsa_modulo
                  s := combine aux.s pdata.x aux.t rng.m aux.rsa_modulo
                  f := combine aux.s rng.beta aux.t rng.delta aux.rsa_modulo
                  t := combine aux.s pdata.y aux.t rng.mu aux.rsa_modulo },
                { alpha := rng.alpha, beta := rng.beta, r := rng.r, r_y := rng.r_y,
                  gamma := rng.gamma, m := rng.m, delta := rng.delta, mu := rng.mu })

/-- Πaff-g prove. -/
def prove (data : Data) (pdata : PrivateData) (pcomm : PrivateCommitment)
    (e : ℕ) : Proof :=
  { z1 := pcomm.alpha + e * pdata.x
    z2 := pcomm.beta + e * pdata.y
    z3 := pcomm.gamma + e * pcomm.m
    z4 := pcomm.delta + e * pcomm.mu
    w := combine pcomm.r 1 pdata.nonce e data.key0
    w_y := combine pcomm.r_y 1 pdata.nonce_y e data.key1 }

/-- Πaff-g verify: five equality checks and two range checks in the order
of the source, failing with the static string of the first violated check;
the two verifier-side encryptions are unwrapped, so their failure is a
panic, embedded as none. -/
def verify (aux : Aux) (data : Data) (comm : Commitment) (e : ℕ) (pf : Proof) :
    Option (Except String Unit) :=
  match paillierEncrypt data.key0 pf.z2 pf.w with
  | none => none
  | some enc0 =>
      if paillierAdd data.key0 (paillierMul data.key0 data.c pf.z1) enc0
          = combine comm.a 1 data.d e (data.key0 * data.key0) then
        if data.g ^ pf.z1 % data.q = combine comm.b_x 1 data.x e data.q then
          match paillierEncrypt data.key1 pf.z2 pf.w_y with
          | none => none
          | some enc1 =>
              if enc1 = combine comm.b_y 1 data.y e (data.key1 * data.key1) then
                if combine aux.s pf.z1 aux.t pf.z3 aux.rsa_modulo
                    = combine comm.e 1 comm.s e aux.rsa_modulo then
                  if combine aux.s pf.z2 aux.t pf.z4 aux.rsa_modulo
                      = combine comm.f 1 comm.t e aux.rsa_modulo then
                    if pf.z1 ≤ 1 <<< (L + EPSILON) then
                      if pf.z2 ≤ 1 <<< (L + EPSILON) then some (.ok ())
                      else some (.error "range check7")
                    else some (.error "range check6")
                  else some (.error "check5")
                else some (.error "check4")
              else some (.error "check3")
        else some (.error "check2")
      else some (.error "check1")

/-- Πaff-g challenge: SHA-512 over the concatenated serialised transcript,
the digest read as a big-endian big integer.  The digest state is the list
of absorbed bytes; each update appends. -/
def challenge (H : List ℕ → List ℕ) (enc : ℕ → List ℕ) (aux : Aux)
    (data : Data) (comm : Commitment) : ℕ :=
  let st : List ℕ := []
  let st := st ++ enc aux.s
  let st := st ++ enc aux.t
  let st := st ++ enc aux.rsa_modulo
  let st := st ++ enc data.g
  let st := st ++ enc data.q
  let st := st ++ enc data.key0
  let st := st ++ enc data.key1
  let st := st ++ enc data.c
  let st := st ++ enc data.d
  let st := st ++ enc data.y
  let st := st ++ enc data.x
  let st := st ++ enc comm.a
  let st := st ++ enc comm.b_x
  let st := st ++ enc comm.b_y
  let st := st ++ enc comm.e
  let st := st ++ enc comm.s
  let st := st ++ enc comm.f
  let st := st ++ enc comm.t
  fromBE (H st)

/-- Πaff-g compute_proof. -/
def computeProof (H : List ℕ → List ℕ) (enc : ℕ → List ℕ) (aux : Aux)
    (data : Data) (pdata : PrivateData) (rng : Rng) :
    Option (Commitment × ℕ × Proof) :=
  match commit aux data pdata rng with
  | none => none
  | some (comm, pcomm) =>
      let e := challenge H enc aux data comm
      some (comm, e, prove data pdata pcomm e)

/-- The commitment produced by a successful run of Πaff-g commit. -/
def commOf (aux : Aux) (data : Data) (pdata : PrivateData) (rng : Rng) :
    Commitment :=
  { a := paillierAdd data.key0 (paillierMul data.key0 data.c rng.alpha)
           ((data.key0 + 1) ^ rng.beta * rng.r ^ data.key0 % (data.key0 * data.key0))
    b_x := data.g ^ rng.alpha % data.q
    b_y := (data.key1 + 1) ^ rng.beta * rng.r_y ^ data.key1 % (data.key1 * data.key1)
    e := combine aux.s rng.alpha aux.t rng.gamma aux.rsa_modulo
    s := combine aux.s pdata.x aux.t rng.m aux.rsa_modulo
    f := combine aux.s rng.beta aux.t rng.delta aux.rsa_modulo
    t := combine aux.s pdata.y aux.t rng.mu aux.rsa_modulo }

/-- The private commitment produced by Πaff-g commit. -/
def pcommOf (rng : Rng) : PrivateCommitment :=
  { alpha := rng.alpha, beta := rng.beta, r := rng.r, r_y := rng.r_y,
    gamma := rng.gamma, m := rng.m, delta := rng.delta, mu := rng.mu }

/-- Πaff-g commit succeeds on in-range beta and produces commOf/pcommOf. -/
theorem affg_commit_eq {aux : Aux} {data : Data} {pdata : PrivateData} {rng : Rng}
    (hβ0 : rng.beta < data.key0) (hβ1 : rng.beta < data.key1) :
    commit aux data pdata rng = some (commOf aux data pdata rng, pcommOf rng) := by
  unfold commit
  rw [paillierEncrypt, if_pos hβ0, paillierEncrypt, if_pos hβ1]
  rfl

/-- Πaff-g compute_proof under a successful commit. -/
theorem affg_computeProof_eq (H : List ℕ → List ℕ) (enc : ℕ → List ℕ)
    {aux : Aux} {data : Data} {pdata : PrivateData} {rng : Rng}
    (hβ0 : rng.beta < data.key0) (hβ1 : rng.beta < data.key1) :
    computeProof H enc aux data pdata rng
      = some (commOf aux data pdata rng,
              challenge H enc aux data (commOf aux data pdata rng),
              prove data pdata (pcommOf rng)
                (challenge H enc aux data (commOf aux data pdata rng))) := by
  unfold computeProof
  rw [affg_commit_eq hβ0 hβ1]

/-- An honestly produced Πaff-g proof passes the five equality checks, so
verification reduces to the two range checks on z1 and z2, provided the two
verifier-side re-encryptions of z2 are accepted (z2 below N0 and N1). -/
theorem affg_verify_prove_honest (aux : Aux) {data : Data}
    {pdata : PrivateData} {rng : Rng} (e : ℕ) {cy : ℕ}
    (hcy : paillierEncrypt data.key0 pdata.y pdata.nonce = some cy)
    (hd : data.d = paillierAdd data.key0
        (paillierMul data.key0 data.c pdata.x) cy)
    (hY : paillierEncrypt data.key1 pdata.y pdata.nonce_y = some data.y)
    (hX : data.x = data.g ^ pdata.x % data.q)
    (hz2a : rng.beta + e * pdata.y < data.key0)
    (hz2b : rng.beta + e * pdata.y < data.key1) :
    verify aux data (commOf aux data pdata rng) e
        (prove data pdata (pcommOf rng) e)
      = if rng.alpha + e * pdata.x ≤ 1 <<< (L + EPSILON) then
          if rng.beta + e * pdata.y ≤ 1 <<< (L + EPSILON) then some (.ok ())
          else some (.error "range check7")
        else some (.error "range check6") := by
  obtain ⟨hylt0, hcyval⟩ := paillierEncrypt_eq_some.mp hcy
  obtain ⟨hylt1, hYval⟩ := paillierEncrypt_eq_some.mp hY
  have henc0 : paillierEncrypt data.key0 (rng.beta + e * pdata.y)
      (combine rng.r 1 pdata.nonce e data.key0)
      = some ((data.key0 + 1) ^ (rng.beta + e * pdata.y)
          * (combine rng.r 1 pdata.nonce e data.key0) ^ data.key0
          % (data.key0 * data.key0)) := by
    rw [paillierEncrypt, if_pos hz2a]
  have henc1 : paillierEncrypt data.key1 (rng.beta + e * pdata.y)
      (combine rng.r_y 1 pdata.nonce_y e data.key1)
      = some ((data.key1 + 1) ^ (rng.beta + e * pdata.y)
          * (combine rng.r_y 1 pdata.nonce_y e data.key1) ^ data.key1
          % (data.key1 * data.key1)) := by
    rw [paillierEncrypt, if_pos hz2b]
  unfold verify prove pcommOf commOf
  simp only
  rw [henc0]
  simp only
  rw [henc1]
  simp only
  rw [if_pos, if_pos, if_pos, if_pos, if_pos]
  · exact pedersen_check aux.s aux.t aux.rsa_modulo pdata.y rng.mu rng.beta rng.delta e
  · exact pedersen_check aux.s aux.t aux.rsa_modulo pdata.x rng.m rng.alpha rng.gamma e
  · rw [hYval, combine_one rng.r_y pdata.nonce_y e data.key1]
    exact enc_check data.key1 rng.beta pdata.y rng.r_y pdata.nonce_y e
  · rw [hX]
    exact pow_check data.g data.q rng.alpha pdata.x e
  · rw [hd, hcyval, combine_one rng.r pdata.nonce e data.key0]
    exact affg_check1 data.key0 data.c pdata.x pdata.y rng.alpha rng.beta rng.r
      pdata.nonce e

end Paffg

/-! ## Claims -/

/-- Scalar multiplication of the generator by a reduced scalar is just that
residue: in the embedded group, the point a·G is a mod q. -/
theorem ptMul_gen (q a : ℕ) : ptMul q (ptGen q) (convert_scalar q a) = a % q := by
  unfold ptMul ptGen convert_scalar
  have h := mod_mul_mod q 1 a
  have hd : 1 % q * (a % q) % q % q = 1 % q * (a % q) % q :=
    Nat.mod_mod_of_dvd _ dvd_rfl
  unfold Nat.ModEq at h
  rw [hd] at h
  rw [h, one_mul]

/-- Modelled from the spec: the Πaff-g challenge as the spec words it, the
512-bit hash of the plain concatenation of the byte encodings of exactly
the fields (aux.s, aux.t, aux.rsa_modulo, g, q, key0, key1, C, D, Y, X, A,
B_x, B_y, E, S, F, T) in that order, with no length prefixes, the digest
interpreted big-endian as a big integer. -/
def affgChallengeSpec (H : List ℕ → List ℕ) (enc : ℕ → List ℕ)
    (aux : Paffg.Aux) (data : Paffg.Data) (comm : Paffg.Commitment) : ℕ :=
  fromBE (H (enc aux.s ++ enc aux.t ++ enc aux.rsa_modulo
    ++ enc data.g ++ enc data.q ++ enc data.key0 ++ enc data.key1
    ++ enc data.c ++ enc data.d ++ enc data.y ++ enc data.x
    ++ enc comm.a ++ enc comm.b_x ++ enc comm.b_y ++ enc comm.e
    ++ enc comm.s ++ enc comm.f ++ enc comm.t))

/-- C6: in Πaff-g, for every data, pdata, pcommitment and challenge e,
prove returns exactly the responses z1 = α + e·x, z2 = β + e·y,
z3 = γ + e·m, z4 = δ + e·μ (computed over the integers, unreduced),
w = r · ρ^e mod N0 and w_y = r_y · ρ_y^e mod N1. -/
theorem C6_affg_prove_responses (data : Paffg.Data) (pdata : Paffg.PrivateData)
    (pcomm : Paffg.PrivateCommitment) (e : ℕ) :
    Paffg.prove data pdata pcomm e
      = { z1 := pcomm.alpha + e * pdata.x
          z2 := pcomm.beta + e * pdata.y
          z3 := pcomm.gamma + e * pcomm.m
          z4 := pcomm.delta + e * pcomm.mu
          w := pcomm.r * pdata.nonce ^ e % data.key0
          w_y := pcomm.r_y * pdata.nonce_y ^ e % data.key1 } := by
  unfold Paffg.prove
  rw [combine_one, combine_one]

/-- C7: the Πaff-g challenge equals the digest of the concatenation of the
byte encodings of exactly the fields (aux.s, aux.t, aux.rsa_modulo, g, q,
key0, key1, C, D, Y, X, A, B_x, B_y, E, S, F, T) in that fixed order with
no length prefixes, interpreted big-endian as a big integer — for every
hash H and encoding enc. -/
theorem C7_affg_challenge_transcript (H : List ℕ → List ℕ)
    (enc : ℕ → List ℕ) (aux : Paffg.Aux) (data : Paffg.Data)
    (comm : Paffg.Commitment) :
    Paffg.challenge H enc aux data comm = affgChallengeSpec H enc aux data comm := by
  unfold Paffg.challenge affgChallengeSpec
  simp [List.append_assoc]

/-- C8: for both implemented protocols, challenge is a pure deterministic
function of tag, aux, data and commitment (and of the externally supplied
hash and serialisation functions): equal inputs give equal outputs, and the
function takes no randomness source. -/
theorem C8_challenge_deterministic :
    (∀ (H : List ℕ → List (List ℕ) → ℕ) (enc encPt : ℕ → List ℕ)
       (tag₁ tag₂ : List ℕ) (q : ℕ) (aux₁ aux₂ : Plog.Aux)
       (d₁ d₂ : Plog.Data) (c₁ c₂ : Plog.Commitment),
       tag₁ = tag₂ → aux₁ = aux₂ → d₁ = d₂ → c₁ = c₂ →
       Plog.challenge H enc encPt tag₁ q aux₁ d₁ c₁
         = Plog.challenge H enc encPt tag₂ q aux₂ d₂ c₂)
    ∧ (∀ (H : List ℕ → List ℕ) (enc : ℕ → List ℕ) (aux₁ aux₂ : Paffg.Aux)
       (d₁ d₂ : Paffg.Data) (c₁ c₂ : Paffg.Commitment),
       aux₁ = aux₂ → d₁ = d₂ → c₁ = c₂ →
       Paffg.challenge H enc aux₁ d₁ c₁ = Paffg.challenge H enc aux₂ d₂ c₂) := by
  constructor
  · intro H enc encPt tag₁ tag₂ q aux₁ aux₂ d₁ d₂ c₁ c₂ ht ha hd hc
    rw [ht, ha, hd, hc]
  · intro H enc aux₁ aux₂ d₁ d₂ c₁ c₂ ha hd hc
    rw [ha, hd, hc]

/-- Witness for C8: equal concrete inputs to both challenge functions give
equal outputs. -/
theorem C8_challenge_deterministic_witness :
    Plog.challenge (fun _ _ => 0) (fun _ => []) (fun _ => []) [] 5
        ⟨1, 2, 3⟩ ⟨4, 5, 6⟩ ⟨7, 8, 9, 10⟩
      = Plog.challenge (fun _ _ => 0) (fun _ => []) (fun _ => []) [] 5
        ⟨1, 2, 3⟩ ⟨4, 5, 6⟩ ⟨7, 8, 9, 10⟩
    ∧ Paffg.challenge (fun _ => []) (fun _ => []) ⟨1, 2, 3⟩
        ⟨1, 2, 3, 4, 5, 6, 7, 8⟩ ⟨1, 2, 3, 4, 5, 6, 7⟩
      = Paffg.challenge (fun _ => []) (fun _ => []) ⟨1, 2, 3⟩
        ⟨1, 2, 3, 4, 5, 6, 7, 8⟩ ⟨1, 2, 3, 4, 5, 6, 7⟩ :=
  ⟨C8_challenge_deterministic.1 (fun _ _ => 0) (fun _ => []) (fun _ => []) [] []
      5 ⟨1, 2, 3⟩ ⟨1, 2, 3⟩ ⟨4, 5, 6⟩ ⟨4, 5, 6⟩ ⟨7, 8, 9, 10⟩ ⟨7, 8, 9, 10⟩
      rfl rfl rfl rfl,
   C8_challenge_deterministic.2 (fun _ => []) (fun _ => []) ⟨1, 2, 3⟩ ⟨1, 2, 3⟩
      ⟨1, 2, 3, 4, 5, 6, 7, 8⟩ ⟨1, 2, 3, 4, 5, 6, 7, 8⟩
      ⟨1, 2, 3, 4, 5, 6, 7⟩ ⟨1, 2, 3, 4, 5, 6, 7⟩ rfl rfl rfl⟩

/-- C10: check 2 of the Πlog* verifier compares both sides only after
reducing z1 and the challenge modulo the curve order q via convert_scalar,
so it cannot distinguish responses congruent modulo q: for every k the
check holds for z1 if and only if it holds for z1 + k·q. -/
theorem C10_log_check2_mod_q (q z1 k e : ℕ) (data : Plog.Data)
    (comm : Plog.Commitment) :
    convert_scalar q (z1 + k * q) = convert_scalar q z1
    ∧ (ptMul q (ptGen q) (convert_scalar q (z1 + k * q))
          = ptAdd q comm.y (ptMul q data.x (convert_scalar q e))
        ↔ ptMul q (ptGen q) (convert_scalar q z1)
          = ptAdd q comm.y (ptMul q data.x (convert_scalar q e))) := by
  have h : convert_scalar q (z1 + k * q) = convert_scalar q z1 :=
    Nat.add_mul_mod_self_right z1 k q
  exact ⟨h, by rw [h]⟩

/-- C3: the Πaff-g verifier is not total: it unwraps the verifier-side
encryption of z2, so a proof whose z2 is rejected by the Paillier primitive
makes verify panic (embedded as none) instead of returning an error.  Here
key0 = 3 and z2 = 5. -/
theorem C3_affg_verify_panics :
    Paffg.verify ⟨1, 1, 1⟩ ⟨1, 2, 3, 3, 1, 1, 1, 1⟩ ⟨1, 1, 1, 1, 1, 1, 1⟩ 0
      ⟨1, 5, 1, 1, 1, 1⟩ = none := rfl

/-- C4 (amended): Πlog* commit returns the commitment pair or fails with
exactly the error EncryptionFailed (never HashFailed); Πaff-g commit
instead unwraps its two encryptions, so it panics (none) exactly when the
external primitive rejects beta under either key, and otherwise returns
the pair. -/
theorem C4_commit_outcomes :
    (∀ (q : ℕ) (aux : Plog.Aux) (data : Plog.Data) (pdata : Plog.PrivateData)
       (rng : Plog.Rng),
       Plog.commit q aux data pdata rng = .error .encryptionFailed
         ∨ ∃ p, Plog.commit q aux data pdata rng = .ok p)
    ∧ (∀ (aux : Paffg.Aux) (data : Paffg.Data) (pdata : Paffg.PrivateData)
       (rng : Paffg.Rng),
       Paffg.commit aux data pdata rng = none
         ↔ (paillierEncrypt data.key0 rng.beta rng.r = none
             ∨ paillierEncrypt data.key1 rng.beta rng.r_y = none)) := by
  constructor
  · intro q aux data pdata rng
    unfold Plog.commit
    cases paillierEncrypt data.key0 rng.alpha rng.r
    · exact Or.inl rfl
    · exact Or.inr ⟨_, rfl⟩
  · intro aux data pdata rng
    unfold Paffg.commit
    cases h0 : paillierEncrypt data.key0 rng.beta rng.r
    · simp
    · cases h1 : paillierEncrypt data.key1 rng.beta rng.r_y
      · simp [h1]
      · simp [h1]

/-- Counterexample to C4 as stated: on a valid RNG draw (beta = 5) with
key0 = 3, Πaff-g commit panics (none) instead of returning the pair or an
EncryptionFailed error value. -/
theorem C4_commit_counterexample :
    Paffg.Rng.valid ⟨1, 1, 1⟩ 3 3 ⟨0, 5, 1, 1, 0, 0, 0, 0⟩
      ∧ Paffg.commit ⟨1, 1, 1⟩ ⟨1, 2, 3, 3, 1, 1, 1, 1⟩ ⟨1, 1, 1, 1⟩
          ⟨0, 5, 1, 1, 0, 0, 0, 0⟩ = none := by
  constructor
  · constructor
    · decide
    · refine ⟨by decide, by decide, by decide, by decide, by decide, ?_, ?_, ?_, ?_⟩
        <;> decide
  · rfl

/-- C5 (amended): the Πlog* verifier reports the first violated check in the
fixed order — equality checks 1, 2, 3, then range check 4 — using the
InvalidProof taxonomy, with EncryptionFailed when the verifier-side
encryption rejects the response; the Πaff-g verifier reports the first
violated check in the fixed order — equality checks 1–5, then range checks
6 and 7 — as a static string, and panics (none) instead of returning an
error when a verifier-side encryption rejects the response. -/
theorem C5_first_violated_check :
    (∀ (q : ℕ) (aux : Plog.Aux) (data : Plog.Data) (comm : Plog.Commitment)
       (e : ℕ) (pf : Plog.Proof),
       (paillierEncrypt data.key0 pf.z1 pf.z2 = none →
         Plog.verify q aux data comm e pf = .error .encryptionFailed)
       ∧ (∀ v, paillierEncrypt data.key0 pf.z1 pf.z2 = some v →
           Plog.verify q aux data comm e pf
             = firstFailure
                 [(decide (v = combine comm.a 1 data.c e (data.key0 * data.key0)),
                     InvalidProof.equalityCheckFailed 1),
                  (decide (ptMul q (ptGen q) (convert_scalar q pf.z1)
                       = ptAdd q comm.y (ptMul q data.x (convert_scalar q e))),
                     InvalidProof.equalityCheckFailed 2),
                  (decide (combine aux.s pf.z1 aux.t pf.z3 aux.rsa_modulo
                       = combine comm.d 1 comm.s e aux.rsa_modulo),
                     InvalidProof.equalityCheckFailed 3),
                  (decide (pf.z1 ≤ 1 <<< (L + EPSILON)),
                     InvalidProof.rangeCheckFailed 4)]))
    ∧ (∀ (aux : Paffg.Aux) (data : Paffg.Data) (comm : Paffg.Commitment)
       (e : ℕ) (pf : Paffg.Proof),
       (paillierEncrypt data.key0 pf.z2 pf.w = none →
         Paffg.verify aux data comm e pf = none)
       ∧ (∀ v, paillierEncrypt data.key0 pf.z2 pf.w = some v →
           paillierAdd data.key0 (paillierMul data.key0 data.c pf.z1) v
             = combine comm.a 1 data.d e (data.key0 * data.key0) →
           data.g ^ pf.z1 % data.q = combine comm.b_x 1 data.x e data.q →
           paillierEncrypt data.key1 pf.z2 pf.w_y = none →
           Paffg.verify aux data comm e pf = none)
       ∧ (∀ v v₁, paillierEncrypt data.key0 pf.z2 pf.w = some v →
           paillierEncrypt data.key1 pf.z2 pf.w_y = some v₁ →
           Paffg.verify aux data comm e pf
             = some (firstFailure
                 [(decide (paillierAdd data.key0 (paillierMul data.key0 data.c pf.z1) v
                      = combine comm.a 1 data.d e (data.key0 * data.key0)), "check1"),
                  (decide (data.g ^ pf.z1 % data.q
                      = combine comm.b_x 1 data.x e data.q), "check2"),
                  (decide (v₁ = combine comm.b_y 1 data.y e (data.key1 * data.key1)),
                     "check3"),
                  (decide (combine aux.s pf.z1 aux.t pf.z3 aux.rsa_modulo
                      = combine comm.e 1 comm.s e aux.rsa_modulo), "check4"),
                  (decide (combine aux.s pf.z2 aux.t pf.z4 aux.rsa_modulo
                      = combine comm.f 1 comm.t e aux.rsa_modulo), "check5"),
                  (decide (pf.z1 ≤ 1 <<< (L + EPSILON)), "range check6"),
                  (decide (pf.z2 ≤ 1 <<< (L + EPSILON)), "range check7")]))) := by
  constructor
  · intro q aux data comm e pf
    constructor
    · intro h
      unfold Plog.verify
      rw [h]
    · intro v hv
      unfold Plog.verify
      rw [hv]
      simp only
      by_cases h1 : v = combine comm.a 1 data.c e (data.key0 * data.key0)
      · rw [if_pos h1, decide_eq_true h1]
        by_cases h2 : ptMul q (ptGen q) (convert_scalar q pf.z1)
            = ptAdd q comm.y (ptMul q data.x (convert_scalar q e))
        · rw [if_pos h2, decide_eq_true h2]
          by_cases h3 : combine aux.s pf.z1 aux.t pf.z3 aux.rsa_modulo
              = combine comm.d 1 comm.s e aux.rsa_modulo
          · rw [if_pos h3, decide_eq_true h3]
            by_cases h4 : pf.z1 ≤ 1 <<< (L + EPSILON)
            · rw [if_pos h4, decide_eq_true h4]
              rfl
            · rw [if_neg h4, decide_eq_false h4]
              rfl
          · rw [if_neg h3, decide_eq_false h3]
            rfl
        · rw [if_neg h2, decide_eq_false h2]
          rfl
      · rw [if_neg h1, decide_eq_false h1]
        rfl
  · intro aux data comm e pf
    refine ⟨?_, ?_, ?_⟩
    · intro h
      unfold Paffg.verify
      rw [h]
    · intro v hv h1 h2 henc1
      unfold Paffg.verify
      rw [hv]
      simp only
      rw [if_pos h1, if_pos h2, henc1]
    · intro v v₁ hv hv₁
      unfold Paffg.verify
      rw [hv]
      simp only
      by_cases h1 : paillierAdd data.key0 (paillierMul data.key0 data.c pf.z1) v
          = combine comm.a 1 data.d e (data.key0 * data.key0)
      · rw [if_pos h1, decide_eq_true h1]
        by_cases h2 : data.g ^ pf.z1 % data.q = combine comm.b_x 1 data.x e data.q
        · rw [if_pos h2, decide_eq_true h2, hv₁]
          simp only
          by_cases h3 : v₁ = combine comm.b_y 1 data.y e (data.key1 * data.key1)
          · rw [if_pos h3, decide_eq_true h3]
            by_cases h4 : combine aux.s pf.z1 aux.t pf.z3 aux.rsa_modulo
                = combine comm.e 1 comm.s e aux.rsa_modulo
            · rw [if_pos h4, decide_eq_true h4]
              by_cases h5 : combine aux.s pf.z2 aux.t pf.z4 aux.rsa_modulo
                  = combine comm.f 1 comm.t e aux.rsa_modulo
              · rw [if_pos h5, decide_eq_true h5]
                by_cases h6 : pf.z1 ≤ 1 <<< (L + EPSILON)
                · rw [if_pos h6, decide_eq_true h6]
                  by_cases h7 : pf.z2 ≤ 1 <<< (L + EPSILON)
                  · rw [if_pos h7, decide_eq_true h7]
                    rfl
                  · rw [if_neg h7, decide_eq_false h7]
                    rfl
                · rw [if_neg h6, decide_eq_false h6]
                  rfl
              · rw [if_neg h5, decide_eq_false h5]
                rfl
            · rw [if_neg h4, decide_eq_false h4]
              rfl
          · rw [if_neg h3, decide_eq_false h3]
            rfl
        · rw [if_neg h2, decide_eq_false h2]
          rfl
      · rw [if_neg h1, decide_eq_false h1]
        rfl

/-- Witness for C5: concrete verifier runs hitting the characterisation, for
Πlog* with a successful verifier-side encryption and for Πaff-g with both
encryptions successful. -/
theorem C5_first_violated_check_witness :
    Plog.verify 5 ⟨2, 3, 35⟩ ⟨15, 1, 1⟩ ⟨1, 1, 1, 1⟩ 0 ⟨1, 1, 1⟩
      = firstFailure
          [(decide ((16 : ℕ) = combine 1 1 1 0 (15 * 15)),
              InvalidProof.equalityCheckFailed 1),
           (decide (ptMul 5 (ptGen 5) (convert_scalar 5 1)
                = ptAdd 5 1 (ptMul 5 1 (convert_scalar 5 0))),
              InvalidProof.equalityCheckFailed 2),
           (decide (combine 2 1 3 1 35 = combine 1 1 1 0 35),
              InvalidProof.equalityCheckFailed 3),
           (decide ((1 : ℕ) ≤ 1 <<< (L + EPSILON)),
              InvalidProof.rangeCheckFailed 4)]
    ∧ Paffg.verify ⟨2, 3, 35⟩ ⟨1, 2, 3, 3, 1, 1, 1, 1⟩ ⟨1, 1, 1, 1, 1, 1, 1⟩ 0
        ⟨1, 1, 1, 1, 1, 1⟩
      = some (firstFailure
          [(decide (paillierAdd 3 (paillierMul 3 1 1) 4
               = combine 1 1 1 0 (3 * 3)), "check1"),
           (decide ((1 : ℕ) ^ 1 % 2 = combine 1 1 1 0 2), "check2"),
           (decide ((4 : ℕ) = combine 1 1 1 0 (3 * 3)), "check3"),
           (decide (combine 2 1 3 1 35 = combine 1 1 1 0 35), "check4"),
           (decide (combine 2 1 3 1 35 = combine 1 1 1 0 35), "check5"),
           (decide ((1 : ℕ) ≤ 1 <<< (L + EPSILON)), "range check6"),
           (decide ((1 : ℕ) ≤ 1 <<< (L + EPSILON)), "range check7")]) :=
  ⟨((C5_first_violated_check.1 5 ⟨2, 3, 35⟩ ⟨15, 1, 1⟩ ⟨1, 1, 1, 1⟩ 0
      ⟨1, 1, 1⟩).2 16 (by decide)),
   ((C5_first_violated_check.2 ⟨2, 3, 35⟩ ⟨1, 2, 3, 3, 1, 1, 1, 1⟩
      ⟨1, 1, 1, 1, 1, 1, 1⟩ 0 ⟨1, 1, 1, 1, 1, 1⟩).2.2 4 4 (by decide) (by decide))⟩

/-- Counterexample to C5 as stated: when the Πaff-g verifier-side
encryption rejects the response (key0 = 5, z2 = 7), verify panics (none)
instead of returning an error of the InvalidProof taxonomy; and when a
check fails, the error Πaff-g reports is a static string, here the string
of check 1, not an EqualityCheckFailed value. -/
theorem C5_first_violated_check_counterexample :
    Paffg.verify ⟨1, 1, 1⟩ ⟨1, 2, 5, 5, 1, 1, 1, 1⟩ ⟨1, 1, 1, 1, 1, 1, 1⟩ 0
        ⟨1, 7, 1, 1, 1, 1⟩ = none
    ∧ Paffg.verify ⟨1, 1, 1⟩ ⟨1, 2, 5, 5, 9, 1, 1, 1⟩ ⟨1, 1, 1, 1, 1, 1, 1⟩ 0
        ⟨1, 2, 1, 1, 1, 1⟩ = some (.error "check1") := by
  constructor
  · rfl
  · rfl

/-- C9: Πlog* commit draws alpha from [0, 2^(L+EPSILON)), mu from
[0, 2^L · N̂), r invertible modulo N0 and gamma from [0, 2^(L+EPSILON) · N̂),
and — when the encryption of alpha is accepted — returns the commitment
(S = s^x · t^mu mod N̂, A = Enc(alpha; r), Y = alpha·G, D = s^alpha ·
t^gamma mod N̂) together with a private commitment holding exactly
(alpha, mu, r, gamma). -/
theorem C9_log_commit (q : ℕ) (aux : Plog.Aux) (data : Plog.Data)
    (pdata : Plog.PrivateData) (rng : Plog.Rng) (a : ℕ)
    (ha : paillierEncrypt data.key0 rng.alpha rng.r = some a) :
    (Plog.Rng.valid aux data.key0 rng ↔
        (rng.alpha < 2 ^ (L + EPSILON)
          ∧ rng.mu < 2 ^ L * aux.rsa_modulo
          ∧ rng.r < data.key0 ∧ Nat.gcd rng.r data.key0 = 1
          ∧ rng.gamma < 2 ^ (L + EPSILON) * aux.rsa_modulo))
    ∧ Plog.commit q aux data pdata rng
        = .ok ({ s := aux.s ^ pdata.x * aux.t ^ rng.mu % aux.rsa_modulo
                 a := a
                 y := rng.alpha % q
                 d := aux.s ^ rng.alpha * aux.t ^ rng.gamma % aux.rsa_modulo },
               { alpha := rng.alpha, mu := rng.mu, r := rng.r,
                 gamma := rng.gamma }) := by
  obtain ⟨hα, hav⟩ := paillierEncrypt_eq_some.mp ha
  constructor
  · unfold Plog.Rng.valid
    rw [Nat.one_shiftLeft, Nat.one_shiftLeft]
  · rw [Plog.log_commit_eq hα]
    unfold Plog.commOf Plog.pcommOf
    rw [combine_eq, combine_eq, ptMul_gen, hav]

set_option maxRecDepth 8192 in
/-- Witness for C9: a concrete run of Πlog* commit with N0 = 15,
alpha = 1, mu = 1, r = 2, gamma = 1. -/
theorem C9_log_commit_witness :
    (Plog.Rng.valid ⟨2, 3, 35⟩ 15 ⟨1, 1, 2, 1⟩ ↔
        ((1 : ℕ) < 2 ^ (L + EPSILON)
          ∧ (1 : ℕ) < 2 ^ L * 35
          ∧ (2 : ℕ) < 15 ∧ Nat.gcd 2 15 = 1
          ∧ (1 : ℕ) < 2 ^ (L + EPSILON) * 35))
    ∧ Plog.commit 5 ⟨2, 3, 35⟩ ⟨15, 38, 2⟩ ⟨2, 2⟩ ⟨1, 1, 2, 1⟩
        = .ok ({ s := 2 ^ 2 * 3 ^ 1 % 35
                 a := 16 ^ 1 * 2 ^ 15 % (15 * 15)
                 y := 1 % 5
                 d := 2 ^ 1 * 3 ^ 1 % 35 },
               { alpha := 1, mu := 1, r := 2, gamma := 1 }) :=
  C9_log_commit 5 ⟨2, 3, 35⟩ ⟨15, 38, 2⟩ ⟨2, 2⟩ ⟨1, 1, 2, 1⟩
    (16 ^ 1 * 2 ^ 15 % (15 * 15)) rfl

/-- C1 (amended): for both implemented protocols, for every hash and
serialisation, every well-formed input tuple satisfying the honest-prover
invariants with in-range witnesses, and every admissible RNG draw,
compute_proof succeeds and verify accepts — provided additionally the
masked responses stay inside the Paillier plaintext ranges (z1 < N0 for
Πlog*; z2 < N0 and z2 < N1 for Πaff-g, together with alpha < N0 and
beta < N0, N1 on the commit side) and inside the range bound
(z1 ≤ 2^(L+EPSILON), and z2 ≤ 2^(L+EPSILON) for Πaff-g). -/
theorem C1_universal_correctness :
    (∀ (H : List ℕ → List (List ℕ) → ℕ) (enc encPt : ℕ → List ℕ)
       (tag : List ℕ) (q s t nh n0 c xp x ρ : ℕ) (rng : Plog.Rng) (e : ℕ),
       Plog.Rng.valid ⟨s, t, nh⟩ n0 rng →
       x < 2 ^ L →
       paillierEncrypt n0 x ρ = some c →
       xp = ptMul q (ptGen q) (convert_scalar q x) →
       rng.alpha < n0 →
       e = Plog.challenge H enc encPt tag q ⟨s, t, nh⟩ ⟨n0, c, xp⟩
             (Plog.commOf q ⟨s, t, nh⟩ ⟨n0, c, xp⟩ ⟨x, ρ⟩ rng) →
       rng.alpha + e * x < n0 →
       rng.alpha + e * x ≤ 2 ^ (L + EPSILON) →
       Plog.computeProof H enc encPt tag q ⟨s, t, nh⟩ ⟨n0, c, xp⟩ ⟨x, ρ⟩ rng
           = .ok (Plog.commOf q ⟨s, t, nh⟩ ⟨n0, c, xp⟩ ⟨x, ρ⟩ rng, e,
                  Plog.prove ⟨n0, c, xp⟩ ⟨x, ρ⟩ (Plog.pcommOf rng) e)
         ∧ Plog.verify q ⟨s, t, nh⟩ ⟨n0, c, xp⟩
             (Plog.commOf q ⟨s, t, nh⟩ ⟨n0, c, xp⟩ ⟨x, ρ⟩ rng) e
             (Plog.prove ⟨n0, c, xp⟩ ⟨x, ρ⟩ (Plog.pcommOf rng) e) = .ok ())
    ∧ (∀ (H : List ℕ → List ℕ) (enc : ℕ → List ℕ)
       (s t nh g q n0 n1 c d y xg x yw ρ ρy : ℕ) (rng : Paffg.Rng) (e cy : ℕ),
       Paffg.Rng.valid ⟨s, t, nh⟩ n0 n1 rng →
       x < 2 ^ L → yw < 2 ^ L →
       paillierEncrypt n0 yw ρ = some cy →
       d = paillierAdd n0 (paillierMul n0 c x) cy →
       paillierEncrypt n1 yw ρy = some y →
       xg = g ^ x % q →
       rng.beta < n0 → rng.beta < n1 →
       e = Paffg.challenge H enc ⟨s, t, nh⟩ ⟨g, q, n0, n1, c, d, y, xg⟩
             (Paffg.commOf ⟨s, t, nh⟩ ⟨g, q, n0, n1, c, d, y, xg⟩ ⟨x, yw, ρ, ρy⟩ rng) →
       rng.beta + e * yw < n0 →
       rng.beta + e * yw < n1 →
       rng.alpha + e * x ≤ 2 ^ (L + EPSILON) →
       rng.beta + e * yw ≤ 2 ^ (L + EPSILON) →
       Paffg.computeProof H enc ⟨s, t, nh⟩ ⟨g, q, n0, n1, c, d, y, xg⟩
           ⟨x, yw, ρ, ρy⟩ rng
           = some (Paffg.commOf ⟨s, t, nh⟩ ⟨g, q, n0, n1, c, d, y, xg⟩
                     ⟨x, yw, ρ, ρy⟩ rng, e,
                   Paffg.prove ⟨g, q, n0, n1, c, d, y, xg⟩ ⟨x, yw, ρ, ρy⟩
                     (Paffg.pcommOf rng) e)
         ∧ Paffg.verify ⟨s, t, nh⟩ ⟨g, q, n0, n1, c, d, y, xg⟩
             (Paffg.commOf ⟨s, t, nh⟩ ⟨g, q, n0, n1, c, d, y, xg⟩
               ⟨x, yw, ρ, ρy⟩ rng) e
             (Paffg.prove ⟨g, q, n0, n1, c, d, y, xg⟩ ⟨x, yw, ρ, ρy⟩
               (Paffg.pcommOf rng) e)
               = some (.ok ())) := by
  constructor
  · intro H enc encPt tag q s t nh n0 c xp x ρ rng e hrng hxL hc hx hα he
      hz1lt hz1le
    subst he
    refine ⟨Plog.log_computeProof_eq H enc encPt tag hα, ?_⟩
    rw [Plog.log_verify_prove_honest ⟨s, t, nh⟩ _ hc hx hz1lt, Nat.one_shiftLeft,
      if_pos hz1le]
  · intro H enc s t nh g q n0 n1 c d y xg x yw ρ ρy rng e cy hrng hxL hyL hcy
      hd hY hX hβ0 hβ1 he hz2a hz2b hz1le hz2le
    subst he
    refine ⟨Paffg.affg_computeProof_eq H enc hβ0 hβ1, ?_⟩
    rw [Paffg.affg_verify_prove_honest ⟨s, t, nh⟩ _ hcy hd hY hX hz2a hz2b,
      Nat.one_shiftLeft, if_pos hz1le, if_pos hz2le]

set_option maxRecDepth 8192 in
set_option exponentiation.threshold 1200 in
/-- The Πlog* encryption of alpha = 1 with nonce 1 under the large modulus
N0 = 2^552 succeeds. -/
theorem log_big_enc : paillierEncrypt (2 ^ 552) 1 1
    = some ((2 ^ 552 + 1) ^ 1 * 1 ^ 2 ^ 552 % (2 ^ 552 * 2 ^ 552)) := rfl

set_option maxRecDepth 8192 in
/-- On the honest Πlog* instance with N0 = 2^552, x = 1,
alpha = 2^550 − 1 and challenge 4, the verifier rejects the honestly
computed proof with RangeCheckFailed 4: z1 = 2^550 + 3 exceeds
2^(L+EPSILON). -/
theorem log_big_range_fail (c : ℕ)
    (hc : paillierEncrypt (2 ^ 552) 1 1 = some c) :
    Plog.verify 5 ⟨1, 1, 35⟩ ⟨2 ^ 552, c, 1⟩
      (Plog.commOf 5 ⟨1, 1, 35⟩ ⟨2 ^ 552, c, 1⟩ ⟨1, 1⟩ ⟨2 ^ 550 - 1, 0, 1, 0⟩) 4
      (Plog.prove ⟨2 ^ 552, c, 1⟩ ⟨1, 1⟩ (Plog.pcommOf ⟨2 ^ 550 - 1, 0, 1, 0⟩) 4)
      = .error (.rangeCheckFailed 4) := by
  have h := @Plog.log_verify_prove_honest 5 ⟨1, 1, 35⟩ ⟨2 ^ 552, c, 1⟩ ⟨1, 1⟩
    ⟨2 ^ 550 - 1, 0, 1, 0⟩ 4 hc
    ((by decide : (1 : ℕ) = ptMul 5 (ptGen 5) (convert_scalar 5 1)))
    ((by decide : 2 ^ 550 - 1 + 4 * 1 < 2 ^ 552))
  rw [h, if_neg (by decide)]

set_option maxRecDepth 8192 in
/-- On the same large honest Πlog* instance, compute_proof succeeds and
returns the commitment, the challenge 4 and the response. -/
theorem log_big_compute (c : ℕ) :
    Plog.computeProof (fun _ _ => 4) (fun _ => []) (fun _ => []) [] 5
        ⟨1, 1, 35⟩ ⟨2 ^ 552, c, 1⟩ ⟨1, 1⟩ ⟨2 ^ 550 - 1, 0, 1, 0⟩
      = .ok (Plog.commOf 5 ⟨1, 1, 35⟩ ⟨2 ^ 552, c, 1⟩ ⟨1, 1⟩
               ⟨2 ^ 550 - 1, 0, 1, 0⟩, 4,
             Plog.prove ⟨2 ^ 552, c, 1⟩ ⟨1, 1⟩
               (Plog.pcommOf ⟨2 ^ 550 - 1, 0, 1, 0⟩) 4) := by
  rw [Plog.log_computeProof_eq (fun _ _ => 4) (fun _ => []) (fun _ => [])
    [] ((by decide : 2 ^ 550 - 1 < 2 ^ 552))]
  rfl

set_option maxRecDepth 8192 in
set_option exponentiation.threshold 1200 in
/-- Counterexample to C1 as stated: two honest Πlog* instances (all
honest-prover invariants hold, witnesses of at most L bits, admissible RNG
draws), on which verification of the honestly computed proof nevertheless
fails.  First, with N0 = 15, x = 2, alpha = 10 and challenge 4, the
response z1 = 18 overflows the Paillier plaintext range, so the verifier
reports EncryptionFailed.  Second, with N0 = 2^552, x = 1,
alpha = 2^550 − 1 and challenge 4, the response z1 = 2^550 + 3 exceeds
2^(L+EPSILON), so the verifier reports RangeCheckFailed 4. -/
theorem C1_universal_correctness_counterexample :
    (Plog.Rng.valid ⟨2, 3, 35⟩ 15 ⟨10, 1, 2, 1⟩
      ∧ (2 : ℕ) < 2 ^ L
      ∧ paillierEncrypt 15 2 2 = some 158
      ∧ (2 : ℕ) = ptMul 5 (ptGen 5) (convert_scalar 5 2)
      ∧ Plog.computeProof (fun _ _ => 4) (fun _ => []) (fun _ => []) [] 5
          ⟨2, 3, 35⟩ ⟨15, 158, 2⟩ ⟨2, 2⟩ ⟨10, 1, 2, 1⟩
          = .ok (Plog.commOf 5 ⟨2, 3, 35⟩ ⟨15, 158, 2⟩ ⟨2, 2⟩ ⟨10, 1, 2, 1⟩, 4,
                 Plog.prove ⟨15, 158, 2⟩ ⟨2, 2⟩ (Plog.pcommOf ⟨10, 1, 2, 1⟩) 4)
      ∧ Plog.verify 5 ⟨2, 3, 35⟩ ⟨15, 158, 2⟩
          (Plog.commOf 5 ⟨2, 3, 35⟩ ⟨15, 158, 2⟩ ⟨2, 2⟩ ⟨10, 1, 2, 1⟩) 4
          (Plog.prove ⟨15, 158, 2⟩ ⟨2, 2⟩ (Plog.pcommOf ⟨10, 1, 2, 1⟩) 4)
          = .error .encryptionFailed)
    ∧ (Plog.Rng.valid ⟨1, 1, 35⟩ (2 ^ 552) ⟨2 ^ 550 - 1, 0, 1, 0⟩
      ∧ (1 : ℕ) < 2 ^ L
      ∧ paillierEncrypt (2 ^ 552) 1 1
          = some ((2 ^ 552 + 1) ^ 1 * 1 ^ 2 ^ 552 % (2 ^ 552 * 2 ^ 552))
      ∧ (1 : ℕ) = ptMul 5 (ptGen 5) (convert_scalar 5 1)
      ∧ Plog.computeProof (fun _ _ => 4) (fun _ => []) (fun _ => []) [] 5
          ⟨1, 1, 35⟩
          ⟨2 ^ 552, (2 ^ 552 + 1) ^ 1 * 1 ^ 2 ^ 552 % (2 ^ 552 * 2 ^ 552), 1⟩
          ⟨1, 1⟩ ⟨2 ^ 550 - 1, 0, 1, 0⟩
          = .ok (Plog.commOf 5 ⟨1, 1, 35⟩
                   ⟨2 ^ 552, (2 ^ 552 + 1) ^ 1 * 1 ^ 2 ^ 552 % (2 ^ 552 * 2 ^ 552), 1⟩
                   ⟨1, 1⟩ ⟨2 ^ 550 - 1, 0, 1, 0⟩, 4,
                 Plog.prove
                   ⟨2 ^ 552, (2 ^ 552 + 1) ^ 1 * 1 ^ 2 ^ 552 % (2 ^ 552 * 2 ^ 552), 1⟩
                   ⟨1, 1⟩ (Plog.pcommOf ⟨2 ^ 550 - 1, 0, 1, 0⟩) 4)
      ∧ Plog.verify 5 ⟨1, 1, 35⟩
          ⟨2 ^ 552, (2 ^ 552 + 1) ^ 1 * 1 ^ 2 ^ 552 % (2 ^ 552 * 2 ^ 552), 1⟩
          (Plog.commOf 5 ⟨1, 1, 35⟩
            ⟨2 ^ 552, (2 ^ 552 + 1) ^ 1 * 1 ^ 2 ^ 552 % (2 ^ 552 * 2 ^ 552), 1⟩
            ⟨1, 1⟩ ⟨2 ^ 550 - 1, 0, 1, 0⟩) 4
          (Plog.prove
            ⟨2 ^ 552, (2 ^ 552 + 1) ^ 1 * 1 ^ 2 ^ 552 % (2 ^ 552 * 2 ^ 552), 1⟩
            ⟨1, 1⟩ (Plog.pcommOf ⟨2 ^ 550 - 1, 0, 1, 0⟩) 4)
          = .error (.rangeCheckFailed 4)) := by
  constructor
  · refine ⟨by decide, by decide, by decide, by decide, ?_, ?_⟩
    · rw [Plog.log_computeProof_eq (fun _ _ => 4) (fun _ => []) (fun _ => []) []
        (by decide)]
      rfl
    · rfl
  · exact ⟨⟨by decide, by decide, by decide, by decide, by decide⟩,
      by decide, log_big_enc, by decide,
      log_big_compute ((2 ^ 552 + 1) ^ 1 * 1 ^ 2 ^ 552 % (2 ^ 552 * 2 ^ 552)),
      log_big_range_fail ((2 ^ 552 + 1) ^ 1 * 1 ^ 2 ^ 552 % (2 ^ 552 * 2 ^ 552))
        log_big_enc⟩

/-- C2 (amended): for both implemented protocols, when the witness x
exceeds the bound (x ≥ 2^(L+EPSILON)) and the proof is produced honestly,
verification fails with the range check on z1 — RangeCheckFailed 4 for
Πlog*, the static string of range check 6 for Πaff-g — the preceding
equality checks passing, provided the challenge and masks make z1 in fact
exceed 2^(L+EPSILON) (which a zero challenge need not do) and the
responses stay below the Paillier moduli so that the verifier-side
re-encryptions are accepted. -/
theorem C2_range_soundness :
    (∀ (H : List ℕ → List (List ℕ) → ℕ) (enc encPt : ℕ → List ℕ)
       (tag : List ℕ) (q s t nh n0 c xp x ρ : ℕ) (rng : Plog.Rng) (e : ℕ),
       Plog.Rng.valid ⟨s, t, nh⟩ n0 rng →
       2 ^ (L + EPSILON) ≤ x →
       paillierEncrypt n0 x ρ = some c →
       xp = ptMul q (ptGen q) (convert_scalar q x) →
       rng.alpha < n0 →
       e = Plog.challenge H enc encPt tag q ⟨s, t, nh⟩ ⟨n0, c, xp⟩
             (Plog.commOf q ⟨s, t, nh⟩ ⟨n0, c, xp⟩ ⟨x, ρ⟩ rng) →
       rng.alpha + e * x < n0 →
       2 ^ (L + EPSILON) < rng.alpha + e * x →
       Plog.computeProof H enc encPt tag q ⟨s, t, nh⟩ ⟨n0, c, xp⟩ ⟨x, ρ⟩ rng
           = .ok (Plog.commOf q ⟨s, t, nh⟩ ⟨n0, c, xp⟩ ⟨x, ρ⟩ rng, e,
                  Plog.prove ⟨n0, c, xp⟩ ⟨x, ρ⟩ (Plog.pcommOf rng) e)
         ∧ Plog.verify q ⟨s, t, nh⟩ ⟨n0, c, xp⟩
             (Plog.commOf q ⟨s, t, nh⟩ ⟨n0, c, xp⟩ ⟨x, ρ⟩ rng) e
             (Plog.prove ⟨n0, c, xp⟩ ⟨x, ρ⟩ (Plog.pcommOf rng) e)
             = .error (.rangeCheckFailed 4))
    ∧ (∀ (H : List ℕ → List ℕ) (enc : ℕ → List ℕ)
       (s t nh g q n0 n1 c d y xg x yw ρ ρy : ℕ) (rng : Paffg.Rng) (e cy : ℕ),
       Paffg.Rng.valid ⟨s, t, nh⟩ n0 n1 rng →
       2 ^ (L + EPSILON) ≤ x →
       paillierEncrypt n0 yw ρ = some cy →
       d = paillierAdd n0 (paillierMul n0 c x) cy →
       paillierEncrypt n1 yw ρy = some y →
       xg = g ^ x % q →
       rng.beta < n0 → rng.beta < n1 →
       e = Paffg.challenge H enc ⟨s, t, nh⟩ ⟨g, q, n0, n1, c, d, y, xg⟩
             (Paffg.commOf ⟨s, t, nh⟩ ⟨g, q, n0, n1, c, d, y, xg⟩
               ⟨x, yw, ρ, ρy⟩ rng) →
       rng.beta + e * yw < n0 →
       rng.beta + e * yw < n1 →
       2 ^ (L + EPSILON) < rng.alpha + e * x →
       Paffg.computeProof H enc ⟨s, t, nh⟩ ⟨g, q, n0, n1, c, d, y, xg⟩
           ⟨x, yw, ρ, ρy⟩ rng
           = some (Paffg.commOf ⟨s, t, nh⟩ ⟨g, q, n0, n1, c, d, y, xg⟩
                     ⟨x, yw, ρ, ρy⟩ rng, e,
                   Paffg.prove ⟨g, q, n0, n1, c, d, y, xg⟩ ⟨x, yw, ρ, ρy⟩
                     (Paffg.pcommOf rng) e)
         ∧ Paffg.verify ⟨s, t, nh⟩ ⟨g, q, n0, n1, c, d, y, xg⟩
             (Paffg.commOf ⟨s, t, nh⟩ ⟨g, q, n0, n1, c, d, y, xg⟩
               ⟨x, yw, ρ, ρy⟩ rng) e
             (Paffg.prove ⟨g, q, n0, n1, c, d, y, xg⟩ ⟨x, yw, ρ, ρy⟩
               (Paffg.pcommOf rng) e)
               = some (.error "range check6")) := by
  constructor
  · intro H enc encPt tag q s t nh n0 c xp x ρ rng e hrng _hxBig hc hx hα he
      hz1lt hz1gt
    subst he
    refine ⟨Plog.log_computeProof_eq H enc encPt tag hα, ?_⟩
    rw [Plog.log_verify_prove_honest ⟨s, t, nh⟩ _ hc hx hz1lt, Nat.one_shiftLeft,
      if_neg (not_le.mpr hz1gt)]
  · intro H enc s t nh g q n0 n1 c d y xg x yw ρ ρy rng e cy hrng _hxBig hcy
      hd hY hX hβ0 hβ1 he hz2a hz2b hz1gt
    subst he
    refine ⟨Paffg.affg_computeProof_eq H enc hβ0 hβ1, ?_⟩
    rw [Paffg.affg_verify_prove_honest ⟨s, t, nh⟩ _ hcy hd hY hX hz2a hz2b,
      Nat.one_shiftLeft, if_neg (not_le.mpr hz1gt)]

set_option maxRecDepth 8192 in
set_option exponentiation.threshold 1200 in
/-- The Πlog* encryption of the over-long witness x = 2^551 with nonce 1
under N0 = 2^552 succeeds. -/
theorem log_big_enc2 : paillierEncrypt (2 ^ 552) (2 ^ 551) 1
    = some ((2 ^ 552 + 1) ^ 2 ^ 551 * 1 ^ 2 ^ 552 % (2 ^ 552 * 2 ^ 552)) := rfl

set_option maxRecDepth 8192 in
/-- On the honest Πlog* instance with the over-long witness x = 2^551 and
challenge 0, the verifier accepts the honestly computed proof: with a zero
challenge the response z1 = alpha carries nothing of the witness. -/
theorem log_big_verify_ok (c : ℕ)
    (hc : paillierEncrypt (2 ^ 552) (2 ^ 551) 1 = some c) :
    Plog.verify 5 ⟨1, 1, 35⟩ ⟨2 ^ 552, c, 3⟩
      (Plog.commOf 5 ⟨1, 1, 35⟩ ⟨2 ^ 552, c, 3⟩ ⟨2 ^ 551, 1⟩ ⟨1, 0, 1, 0⟩) 0
      (Plog.prove ⟨2 ^ 552, c, 3⟩ ⟨2 ^ 551, 1⟩ (Plog.pcommOf ⟨1, 0, 1, 0⟩) 0)
      = .ok () := by
  have h := @Plog.log_verify_prove_honest 5 ⟨1, 1, 35⟩ ⟨2 ^ 552, c, 3⟩
    ⟨2 ^ 551, 1⟩ ⟨1, 0, 1, 0⟩ 0 hc
    ((by decide : (3 : ℕ) = ptMul 5 (ptGen 5) (convert_scalar 5 (2 ^ 551))))
    ((by decide : 1 + 0 * 2 ^ 551 < 2 ^ 552))
  rw [h, if_pos (by decide)]

set_option maxRecDepth 8192 in
/-- On the same instance, compute_proof succeeds with challenge 0. -/
theorem log_big_compute2 (c : ℕ) :
    Plog.computeProof (fun _ _ => 0) (fun _ => []) (fun _ => []) [] 5
        ⟨1, 1, 35⟩ ⟨2 ^ 552, c, 3⟩ ⟨2 ^ 551, 1⟩ ⟨1, 0, 1, 0⟩
      = .ok (Plog.commOf 5 ⟨1, 1, 35⟩ ⟨2 ^ 552, c, 3⟩ ⟨2 ^ 551, 1⟩
               ⟨1, 0, 1, 0⟩, 0,
             Plog.prove ⟨2 ^ 552, c, 3⟩ ⟨2 ^ 551, 1⟩
               (Plog.pcommOf ⟨1, 0, 1, 0⟩) 0) := by
  rw [Plog.log_computeProof_eq (fun _ _ => 0) (fun _ => []) (fun _ => [])
    [] ((by decide : (1 : ℕ) < 2 ^ 552))]
  rfl

set_option maxRecDepth 8192 in
set_option exponentiation.threshold 1200 in
/-- Counterexample to C2 as stated: an honest Πlog* instance whose witness
x = 2^551 exceeds the bound (bitlen(x) > L + EPSILON), on a valid RNG draw,
with a hash producing the challenge 0 — and verification of the honestly
computed proof nevertheless accepts instead of failing with
RangeCheckFailed. -/
theorem C2_range_soundness_counterexample :
    2 ^ (L + EPSILON) ≤ 2 ^ 551
    ∧ Plog.Rng.valid ⟨1, 1, 35⟩ (2 ^ 552) ⟨1, 0, 1, 0⟩
    ∧ paillierEncrypt (2 ^ 552) (2 ^ 551) 1
        = some ((2 ^ 552 + 1) ^ 2 ^ 551 * 1 ^ 2 ^ 552 % (2 ^ 552 * 2 ^ 552))
    ∧ (3 : ℕ) = ptMul 5 (ptGen 5) (convert_scalar 5 (2 ^ 551))
    ∧ Plog.computeProof (fun _ _ => 0) (fun _ => []) (fun _ => []) [] 5
        ⟨1, 1, 35⟩
        ⟨2 ^ 552, (2 ^ 552 + 1) ^ 2 ^ 551 * 1 ^ 2 ^ 552 % (2 ^ 552 * 2 ^ 552), 3⟩
        ⟨2 ^ 551, 1⟩ ⟨1, 0, 1, 0⟩
      = .ok (Plog.commOf 5 ⟨1, 1, 35⟩
               ⟨2 ^ 552, (2 ^ 552 + 1) ^ 2 ^ 551 * 1 ^ 2 ^ 552 % (2 ^ 552 * 2 ^ 552), 3⟩
               ⟨2 ^ 551, 1⟩ ⟨1, 0, 1, 0⟩, 0,
             Plog.prove
               ⟨2 ^ 552, (2 ^ 552 + 1) ^ 2 ^ 551 * 1 ^ 2 ^ 552 % (2 ^ 552 * 2 ^ 552), 3⟩
               ⟨2 ^ 551, 1⟩ (Plog.pcommOf ⟨1, 0, 1, 0⟩) 0)
    ∧ Plog.verify 5 ⟨1, 1, 35⟩
        ⟨2 ^ 552, (2 ^ 552 + 1) ^ 2 ^ 551 * 1 ^ 2 ^ 552 % (2 ^ 552 * 2 ^ 552), 3⟩
        (Plog.commOf 5 ⟨1, 1, 35⟩
          ⟨2 ^ 552, (2 ^ 552 + 1) ^ 2 ^ 551 * 1 ^ 2 ^ 552 % (2 ^ 552 * 2 ^ 552), 3⟩
          ⟨2 ^ 551, 1⟩ ⟨1, 0, 1, 0⟩) 0
        (Plog.prove
          ⟨2 ^ 552, (2 ^ 552 + 1) ^ 2 ^ 551 * 1 ^ 2 ^ 552 % (2 ^ 552 * 2 ^ 552), 3⟩
          ⟨2 ^ 551, 1⟩ (Plog.pcommOf ⟨1, 0, 1, 0⟩) 0)
        = .ok () :=
  ⟨by decide, ⟨by decide, by decide, by decide, by decide, by decide⟩,
   log_big_enc2, by decide,
   log_big_compute2 ((2 ^ 552 + 1) ^ 2 ^ 551 * 1 ^ 2 ^ 552 % (2 ^ 552 * 2 ^ 552)),
   log_big_verify_ok ((2 ^ 552 + 1) ^ 2 ^ 551 * 1 ^ 2 ^ 552 % (2 ^ 552 * 2 ^ 552))
     log_big_enc2⟩

set_option maxRecDepth 8192 in
set_option exponentiation.threshold 1200 in
/-- The Πlog* encryption of the over-long witness x = 2^550 with nonce 1
under N0 = 2^552 succeeds. -/
theorem log_big_enc3 : paillierEncrypt (2 ^ 552) (2 ^ 550) 1
    = some ((2 ^ 552 + 1) ^ 2 ^ 550 * 1 ^ 2 ^ 552 % (2 ^ 552 * 2 ^ 552)) := rfl

set_option maxRecDepth 8192 in
set_option exponentiation.threshold 1200 in
/-- Witness for C2: honest runs of both protocols with the witness
x = 2^550 just above the bound and challenge 1, on which verification
fails exactly at the range check on z1. -/
theorem C2_range_soundness_witness :
    (Plog.computeProof (fun _ _ => 1) (fun _ => []) (fun _ => []) [] 5
         ⟨1, 1, 35⟩
         ⟨2 ^ 552, (2 ^ 552 + 1) ^ 2 ^ 550 * 1 ^ 2 ^ 552 % (2 ^ 552 * 2 ^ 552), 4⟩
         ⟨2 ^ 550, 1⟩ ⟨1, 0, 1, 0⟩
         = .ok (Plog.commOf 5 ⟨1, 1, 35⟩
                  ⟨2 ^ 552, (2 ^ 552 + 1) ^ 2 ^ 550 * 1 ^ 2 ^ 552 % (2 ^ 552 * 2 ^ 552), 4⟩
                  ⟨2 ^ 550, 1⟩ ⟨1, 0, 1, 0⟩, 1,
                Plog.prove
                  ⟨2 ^ 552, (2 ^ 552 + 1) ^ 2 ^ 550 * 1 ^ 2 ^ 552 % (2 ^ 552 * 2 ^ 552), 4⟩
                  ⟨2 ^ 550, 1⟩ (Plog.pcommOf ⟨1, 0, 1, 0⟩) 1)
       ∧ Plog.verify 5 ⟨1, 1, 35⟩
           ⟨2 ^ 552, (2 ^ 552 + 1) ^ 2 ^ 550 * 1 ^ 2 ^ 552 % (2 ^ 552 * 2 ^ 552), 4⟩
           (Plog.commOf 5 ⟨1, 1, 35⟩
             ⟨2 ^ 552, (2 ^ 552 + 1) ^ 2 ^ 550 * 1 ^ 2 ^ 552 % (2 ^ 552 * 2 ^ 552), 4⟩
             ⟨2 ^ 550, 1⟩ ⟨1, 0, 1, 0⟩) 1
           (Plog.prove
             ⟨2 ^ 552, (2 ^ 552 + 1) ^ 2 ^ 550 * 1 ^ 2 ^ 552 % (2 ^ 552 * 2 ^ 552), 4⟩
             ⟨2 ^ 550, 1⟩ (Plog.pcommOf ⟨1, 0, 1, 0⟩) 1)
           = .error (.rangeCheckFailed 4))
    ∧ (Paffg.computeProof (fun _ => [1]) (fun _ => []) ⟨1, 1, 35⟩
         ⟨1, 5, 2 ^ 552, 15, 1,
           paillierAdd (2 ^ 552) (paillierMul (2 ^ 552) 1 (2 ^ 550))
             ((2 ^ 552 + 1) ^ 1 * 1 ^ 2 ^ 552 % (2 ^ 552 * 2 ^ 552)), 38, 1⟩
         ⟨2 ^ 550, 1, 1, 2⟩ ⟨1, 1, 1, 2, 0, 0, 0, 0⟩
         = some (Paffg.commOf ⟨1, 1, 35⟩
                   ⟨1, 5, 2 ^ 552, 15, 1,
                     paillierAdd (2 ^ 552) (paillierMul (2 ^ 552) 1 (2 ^ 550))
                       ((2 ^ 552 + 1) ^ 1 * 1 ^ 2 ^ 552 % (2 ^ 552 * 2 ^ 552)), 38, 1⟩
                   ⟨2 ^ 550, 1, 1, 2⟩ ⟨1, 1, 1, 2, 0, 0, 0, 0⟩, 1,
                 Paffg.prove
                   ⟨1, 5, 2 ^ 552, 15, 1,
                     paillierAdd (2 ^ 552) (paillierMul (2 ^ 552) 1 (2 ^ 550))
                       ((2 ^ 552 + 1) ^ 1 * 1 ^ 2 ^ 552 % (2 ^ 552 * 2 ^ 552)), 38, 1⟩
                   ⟨2 ^ 550, 1, 1, 2⟩
                   (Paffg.pcommOf ⟨1, 1, 1, 2, 0, 0, 0, 0⟩) 1)
       ∧ Paffg.verify ⟨1, 1, 35⟩
           ⟨1, 5, 2 ^ 552, 15, 1,
             paillierAdd (2 ^ 552) (paillierMul (2 ^ 552) 1 (2 ^ 550))
               ((2 ^ 552 + 1) ^ 1 * 1 ^ 2 ^ 552 % (2 ^ 552 * 2 ^ 552)), 38, 1⟩
           (Paffg.commOf ⟨1, 1, 35⟩
             ⟨1, 5, 2 ^ 552, 15, 1,
               paillierAdd (2 ^ 552) (paillierMul (2 ^ 552) 1 (2 ^ 550))
                 ((2 ^ 552 + 1) ^ 1 * 1 ^ 2 ^ 552 % (2 ^ 552 * 2 ^ 552)), 38, 1⟩
             ⟨2 ^ 550, 1, 1, 2⟩ ⟨1, 1, 1, 2, 0, 0, 0, 0⟩) 1
           (Paffg.prove
             ⟨1, 5, 2 ^ 552, 15, 1,
               paillierAdd (2 ^ 552) (paillierMul (2 ^ 552) 1 (2 ^ 550))
                 ((2 ^ 552 + 1) ^ 1 * 1 ^ 2 ^ 552 % (2 ^ 552 * 2 ^ 552)), 38, 1⟩
             ⟨2 ^ 550, 1, 1, 2⟩
             (Paffg.pcommOf ⟨1, 1, 1, 2, 0, 0, 0, 0⟩) 1)
           = some (.error "range check6")) :=
  ⟨C2_range_soundness.1 (fun _ _ => 1) (fun _ => []) (fun _ => []) []
     5 1 1 35 (2 ^ 552)
     ((2 ^ 552 + 1) ^ 2 ^ 550 * 1 ^ 2 ^ 552 % (2 ^ 552 * 2 ^ 552))
     4 (2 ^ 550) 1 ⟨1, 0, 1, 0⟩ 1
     ⟨by decide, by decide, by decide, by decide, by decide⟩
     (by decide) log_big_enc3 (by decide) (by decide) (by decide)
     (by decide) (by decide),
   C2_range_soundness.2 (fun _ => [1]) (fun _ => [])
     1 1 35 1 5 (2 ^ 552) 15 1
     (paillierAdd (2 ^ 552) (paillierMul (2 ^ 552) 1 (2 ^ 550))
       ((2 ^ 552 + 1) ^ 1 * 1 ^ 2 ^ 552 % (2 ^ 552 * 2 ^ 552)))
     38 1 (2 ^ 550) 1 1 2 ⟨1, 1, 1, 2, 0, 0, 0, 0⟩ 1
     ((2 ^ 552 + 1) ^ 1 * 1 ^ 2 ^ 552 % (2 ^ 552 * 2 ^ 552))
     ⟨by decide, by decide, by decide, by decide, by decide, by decide,
      by decide, by decide, by decide, by decide⟩
     (by decide) log_big_enc rfl (by decide)
     ((by norm_num : (1 : ℕ) = 1 ^ 2 ^ 550 % 5))
     (by decide) (by decide) (by decide) (by decide) (by decide) (by decide)⟩

set_option maxRecDepth 8192 in
/-- Witness for C1: small honest instances of both protocols on which
compute_proof succeeds and verify accepts.  For Πlog*: N0 = 15, x = 1,
challenge 1.  For Πaff-g: N0 = 15, N1 = 35, x = 1, y = 2, challenge 1. -/
theorem C1_universal_correctness_witness :
    (Plog.computeProof (fun _ _ => 1) (fun _ => []) (fun _ => []) [] 5
         ⟨2, 3, 35⟩ ⟨15, 38, 1⟩ ⟨1, 2⟩ ⟨1, 1, 2, 1⟩
         = .ok (Plog.commOf 5 ⟨2, 3, 35⟩ ⟨15, 38, 1⟩ ⟨1, 2⟩ ⟨1, 1, 2, 1⟩, 1,
                Plog.prove ⟨15, 38, 1⟩ ⟨1, 2⟩ (Plog.pcommOf ⟨1, 1, 2, 1⟩) 1)
       ∧ Plog.verify 5 ⟨2, 3, 35⟩ ⟨15, 38, 1⟩
           (Plog.commOf 5 ⟨2, 3, 35⟩ ⟨15, 38, 1⟩ ⟨1, 2⟩ ⟨1, 1, 2, 1⟩) 1
           (Plog.prove ⟨15, 38, 1⟩ ⟨1, 2⟩ (Plog.pcommOf ⟨1, 1, 2, 1⟩) 1)
           = .ok ())
    ∧ (Paffg.computeProof (fun _ => [1]) (fun _ => []) ⟨2, 3, 35⟩
         ⟨2, 5, 15, 35, 7, 206, 53, 2⟩ ⟨1, 2, 2, 2⟩ ⟨1, 3, 2, 2, 1, 1, 1, 1⟩
         = some (Paffg.commOf ⟨2, 3, 35⟩ ⟨2, 5, 15, 35, 7, 206, 53, 2⟩
                   ⟨1, 2, 2, 2⟩ ⟨1, 3, 2, 2, 1, 1, 1, 1⟩, 1,
                 Paffg.prove ⟨2, 5, 15, 35, 7, 206, 53, 2⟩ ⟨1, 2, 2, 2⟩
                   (Paffg.pcommOf ⟨1, 3, 2, 2, 1, 1, 1, 1⟩) 1)
       ∧ Paffg.verify ⟨2, 3, 35⟩ ⟨2, 5, 15, 35, 7, 206, 53, 2⟩
           (Paffg.commOf ⟨2, 3, 35⟩ ⟨2, 5, 15, 35, 7, 206, 53, 2⟩
             ⟨1, 2, 2, 2⟩ ⟨1, 3, 2, 2, 1, 1, 1, 1⟩) 1
           (Paffg.prove ⟨2, 5, 15, 35, 7, 206, 53, 2⟩ ⟨1, 2, 2, 2⟩
             (Paffg.pcommOf ⟨1, 3, 2, 2, 1, 1, 1, 1⟩) 1)
           = some (.ok ())) :=
  ⟨C1_universal_correctness.1 (fun _ _ => 1) (fun _ => []) (fun _ => []) []
     5 2 3 35 15 38 1 1 2 ⟨1, 1, 2, 1⟩ 1 (by decide) (by decide) (by decide)
     (by decide) (by decide) (by decide) (by decide) (by decide),
   C1_universal_correctness.2 (fun _ => [1]) (fun _ => [])
     2 3 35 2 5 15 35 7 206 53 2 1 2 2 2 ⟨1, 3, 2, 2, 1, 1, 1, 1⟩ 1 158
     (by decide) (by decide) (by decide) (by decide) (by decide) (by decide)
     (by decide) (by decide) (by decide) (by decide) (by decide) (by decide)
     (by decide) (by decide)⟩


end PaillierZK
